import Mathlib

set_option maxRecDepth 10000

/-!
Shallow embedding of `src/boli_blog_downloader/app.py` (the single source
module of the boli-blog-downloader repository) and proofs about it.

Modelling conventions:
* Bytes are `Nat` values (< 256 for real data); byte strings are `List Nat`.
* Python `str` is Lean `String`.
* The HTTP library (`requests`) is an oracle `net : String → FetchResult`.
* BeautifulSoup is modelled by a DOM tree type `Node` together with the
  `find` / `find_all` queries the code performs; HTML-text parsing itself
  is an oracle `parse : String → Node`.
* The filesystem is a `World` record threaded explicitly; exceptions are
  an `Except` whose error also carries the world (files already written
  persist through a Python exception).
-/

/-- Byte strings (each entry a byte value). -/
def ByteSeq : Type := List Nat

instance : DecidableEq ByteSeq := by
  unfold ByteSeq
  infer_instance

instance : Append ByteSeq := ⟨fun a b => List.append a b⟩

/-! ## Python string primitives used by the code -/

/-- Does `sub` occur as a contiguous run inside `l`? -/
def charsContain (sub : List Char) : List Char → Bool
  | [] => sub.isEmpty
  | c :: rest => sub.isPrefixOf (c :: rest) || charsContain sub rest

/-- Python `s.find(sub) >= 0`, i.e. substring containment. -/
def pyContains (s sub : String) : Bool :=
  charsContain sub.data s.data

/-- Split a character list at every character satisfying `p`, keeping
empty chunks (like Python `str.split(sep)` for a one-character `sep`). -/
def splitOnPred (p : Char → Bool) : List Char → List (List Char)
  | [] => [[]]
  | c :: rest =>
    if p c then [] :: splitOnPred p rest
    else
      match splitOnPred p rest with
      | [] => [[c]]
      | chunk :: more => (c :: chunk) :: more

/-- Python `s.split(sep)` for a one-character separator. -/
def pySplitOn (sep : Char) (s : String) : List String :=
  (splitOnPred (· == sep) s.data).map String.mk

/-- Python `s.replace(a, b)` for one-character `a` and `b`. -/
def pyReplaceChar (a b : Char) (s : String) : String :=
  String.mk (s.data.map (fun c => if c == a then b else c))

/-- Accumulator for decimal-digit parsing. -/
def digitsToNat (acc : Nat) : List Char → Option Nat
  | [] => some acc
  | c :: rest =>
    if c.isDigit then digitsToNat (acc * 10 + (c.toNat - 48)) rest else none

/-- Python `int(s)` restricted to plain decimal-digit strings (the only
form the crawled URLs and post ids produce); `none` models the
`ValueError` that `int` raises otherwise. -/
def pyInt (s : String) : Option Nat :=
  match s.data with
  | [] => none
  | l => digitsToNat 0 l

/-- Python `f"{n:0wd}"` for a non-negative `n`: decimal, left-padded with
zeros to at least `width` characters. -/
def pyZeroPad (width : Nat) (n : Nat) : String :=
  let s := toString n
  String.mk (List.replicate (width - s.length) '0') ++ s

/-- Index (from the start) of the last occurrence of `c` in `l`. -/
def lastIndexOf (c : Char) (l : List Char) : Option Nat :=
  match l.reverse.findIdx? (· == c) with
  | none => none
  | some k => some (l.length - 1 - k)

/-- Python `os.path.splitext(p)[1]` (posix rules): the extension starts at
the last dot that comes after the last path separator, except that a
basename consisting only of leading dots before that dot has no
extension. -/
def splitextExt (p : String) : String :=
  let l := p.data
  match lastIndexOf '.' l with
  | none => ""
  | some dotIdx =>
    let nameStart : Nat :=
      match lastIndexOf '/' l with
      | none => 0
      | some sepIdx => sepIdx + 1
    if nameStart ≤ dotIdx ∧ dotIdx ≠ nameStart ∧
        ¬ ((l.drop nameStart).take (dotIdx - nameStart)).all (· == '.') then
      String.mk (l.drop dotIdx)
    else if nameStart ≤ dotIdx ∧ dotIdx ≠ nameStart ∧
        ((l.drop nameStart).take (dotIdx - nameStart)).all (· == '.') then
      ""
    else if dotIdx < nameStart then ""
    else ""

/-- Is `c` a valid scheme character after the first (letters, digits,
plus, minus, dot)? -/
def isSchemeChar (c : Char) : Bool :=
  c.isAlphanum || c == '+' || c == '-' || c == '.'

/-- Python `urllib.parse.urlparse(u).path`: strip a leading
`scheme:`, then a `//netloc` component, then everything from the first
`#` (fragment) and the first `?` (query). -/
def urlparsePath (u : String) : String :=
  let l := u.data
  -- scheme: everything before the first ':' if it is a valid scheme name
  let afterScheme : List Char :=
    match l.findIdx? (· == ':') with
    | none => l
    | some i =>
      let pre := l.take i
      match pre with
      | [] => l
      | c :: rest =>
        if c.isAlpha ∧ rest.all isSchemeChar then l.drop (i + 1) else l
  -- netloc: if the rest starts with "//", drop up to the next '/', '?' or '#'
  let afterNetloc : List Char :=
    match afterScheme with
    | '/' :: '/' :: rest =>
      rest.dropWhile (fun c => ¬ (c == '/' ∨ c == '?' ∨ c == '#'))
    | other => other
  -- fragment, then query
  let noFrag := afterNetloc.takeWhile (· ≠ '#')
  let noQuery := noFrag.takeWhile (· ≠ '?')
  String.mk noQuery

/-! ## UTF-8 encoding (Python `str.encode()`) -/

/-- UTF-8 encoding of a single code point. -/
def utf8EncodeChar (n : Nat) : List Nat :=
  if n < 0x80 then [n]
  else if n < 0x800 then
    [0xC0 + n / 64, 0x80 + n % 64]
  else if n < 0x10000 then
    [0xE0 + n / 4096, 0x80 + n / 64 % 64, 0x80 + n % 64]
  else
    [0xF0 + n / 262144, 0x80 + n / 4096 % 64, 0x80 + n / 64 % 64, 0x80 + n % 64]

/-- Python `s.encode()`: UTF-8 bytes of the string. -/
def utf8Encode (s : String) : ByteSeq :=
  s.data.flatMap (fun c => utf8EncodeChar c.toNat)

/-! ## SHA-256 (Python `hashlib.sha256(...).hexdigest()`) -/

/-- Truncate to a 32-bit word. -/
def w32 (n : Nat) : Nat := n % 4294967296

/-- 32-bit right rotation. -/
def rotr32 (k n : Nat) : Nat :=
  w32 ((n >>> k) ||| (n <<< (32 - k)))

/-- 32-bit bitwise complement. -/
def not32 (n : Nat) : Nat := 4294967295 - n % 4294967296

/-- The 64 SHA-256 round constants. -/
def sha256K : List Nat :=
  [1116352408, 1899447441, 3049323471, 3921009573,
   961987163, 1508970993, 2453635748, 2870763221,
   3624381080, 310598401, 607225278, 1426881987,
   1925078388, 2162078206, 2614888103, 3248222580,
   3835390401, 4022224774, 264347078, 604807628,
   770255983, 1249150122, 1555081692, 1996064986,
   2554220882, 2821834349, 2952996808, 3210313671,
   3336571891, 3584528711, 113926993, 338241895,
   666307205, 773529912, 1294757372, 1396182291,
   1695183700, 1986661051, 2177026350, 2456956037,
   2730485921, 2820302411, 3259730800, 3345764771,
   3516065817, 3600352804, 4094571909, 275423344,
   430227734, 506948616, 659060556, 883997877,
   958139571, 1322822218, 1537002063, 1747873779,
   1955562222, 2024104815, 2227730452, 2361852424,
   2428436474, 2756734187, 3204031479, 3329325298]
/-- SHA-256 initial hash state. -/
def sha256H0 : List Nat :=
  [1779033703, 3144134277, 1013904242, 2773480762,
   1359893119, 2600822924, 528734635, 1541459225]
/-- Big-endian bytes of `n`, `k` bytes wide. -/
def beBytes : Nat → Nat → List Nat
  | 0, _ => []
  | k + 1, n => beBytes k (n / 256) ++ [n % 256]

/-- SHA-256 message padding: append `0x80`, zero bytes to 56 mod 64, then
the 64-bit big-endian bit length. -/
def sha256Pad (msg : ByteSeq) : ByteSeq :=
  let len : Nat := List.length msg
  let padLen : Nat := (55 + 64 - len % 64) % 64 + 1
  List.append msg
    (List.append (0x80 :: List.replicate (padLen - 1) 0) (beBytes 8 (len * 8)))

/-- Interpret 4 consecutive bytes as a big-endian 32-bit word. -/
def word32OfBytes : List Nat → Nat
  | a :: b :: c :: d :: _ => ((a * 256 + b) * 256 + c) * 256 + d
  | _ => 0

/-- Split a byte string into the 16 big-endian words of each 64-byte block. -/
def sha256Blocks (msg : ByteSeq) : List (List Nat) :=
  let l : List Nat := msg
  (List.range (l.length / 64)).map (fun b =>
    (List.range 16).map (fun i => word32OfBytes ((l.drop (b * 64 + i * 4)).take 4)))

/-- Message-schedule extension step: given the schedule so far in reverse
order (most recent first), produce the next word. -/
def sha256NextW (wrev : List Nat) : Nat :=
  let g : Nat → Nat := fun i => (wrev.get? i).getD 0
  let w15 := g 14
  let w2 := g 1
  let s0 := (rotr32 7 w15 ^^^ rotr32 18 w15) ^^^ (w15 >>> 3)
  let s1 := (rotr32 17 w2 ^^^ rotr32 19 w2) ^^^ (w2 >>> 10)
  w32 (g 15 + s0 + g 6 + s1)

/-- Extend 16 schedule words to 64 (result in reverse order). -/
def sha256ExtendRev : Nat → List Nat → List Nat
  | 0, wrev => wrev
  | k + 1, wrev => sha256ExtendRev k (sha256NextW wrev :: wrev)

/-- One SHA-256 compression round. -/
def sha256Round (st : List Nat) (kw : Nat × Nat) : List Nat :=
  match st with
  | [a, b, c, d, e, f, g, h] =>
    let s1 := (rotr32 6 e ^^^ rotr32 11 e) ^^^ rotr32 25 e
    let ch := (e &&& f) ^^^ (not32 e &&& g)
    let t1 := w32 (h + s1 + ch + kw.1 + kw.2)
    let s0 := (rotr32 2 a ^^^ rotr32 13 a) ^^^ rotr32 22 a
    let mj := ((a &&& b) ^^^ (a &&& c)) ^^^ (b &&& c)
    let t2 := w32 (s0 + mj)
    [w32 (t1 + t2), a, b, c, w32 (d + t1), e, f, g]
  | other => other

/-- Process one 64-byte block: compress and add into the running state. -/
def sha256Block (h : List Nat) (block16 : List Nat) : List Nat :=
  let wAll := (sha256ExtendRev 48 block16.reverse).reverse
  let final := (sha256K.zip wAll).foldl sha256Round h
  List.zipWith (fun x y => w32 (x + y)) h final

/-- Lower-case hex digit for a value < 16. -/
def hexDigit (n : Nat) : Char :=
  if n < 10 then Char.ofNat (48 + n) else Char.ofNat (87 + n)

/-- 8-hex-digit rendering of a 32-bit word. -/
def hexWord32 (n : Nat) : List Char :=
  (List.range 8).map (fun i => hexDigit (n / 16 ^ (7 - i) % 16))

/-- Python `hashlib.sha256(b).hexdigest()`. -/
def sha256Hex (msg : ByteSeq) : String :=
  let final := (sha256Blocks (sha256Pad msg)).foldl sha256Block sha256H0
  String.mk (final.flatMap hexWord32)

/-- Sanity check: the standard SHA-256 test vector for the empty message. -/
theorem sha256Hex_empty_vector :
    sha256Hex ([] : List Nat) =
      "e3b0c44298fc1c149afbf4c8996fb92427ae41e4649b934ca495991b7852b855" := by
  decide

/-! ## DOM model (the BeautifulSoup queries the code performs) -/

/-- A parsed HTML node: an element with tag name, attributes and children,
or a text node. -/
inductive Node where
  | elem (tag : String) (attrs : List (String × String)) (children : List Node)
  | text (s : String)

/-- First-match association-list lookup (Python `dict` access on `attrs`). -/
def assocLookup {β : Type} (key : String) : List (String × β) → Option β
  | [] => none
  | (k, v) :: rest => if k == key then some v else assocLookup key rest

/-- CSS-class membership: BeautifulSoup's `attrs={"class": c}` matches an
element whose whitespace-separated `class` attribute contains `c`. -/
def hasCssClass (attrs : List (String × String)) (cls : String) : Bool :=
  match assocLookup "class" attrs with
  | none => false
  | some v => (splitOnPred Char.isWhitespace v.data).contains cls.data

/-- The attributes of a node (text nodes have none). -/
def Node.attrsOf : Node → List (String × String)
  | .elem _ a _ => a
  | .text _ => []

/-- The tag name of a node (Python `.name`; text nodes get `""`). -/
def Node.tagName : Node → String
  | .elem t _ _ => t
  | .text _ => ""

/-- Does `n` match a tag name and (optionally) a CSS class? -/
def nodeMatches (tag : String) (cls : Option String) (n : Node) : Bool :=
  match n with
  | .text _ => false
  | .elem t attrs _ =>
    t == tag && (match cls with
                 | none => true
                 | some c => hasCssClass attrs c)

mutual

/-- `soup.find_all(tag, attrs={"class": cls})`: all matching descendants of
a node, in document (pre-)order; the node itself is not included. -/
def findAllInNode (tag : String) (cls : Option String) : Node → List Node
  | .text _ => []
  | .elem _ _ cs => findAllInList tag cls cs

/-- `find_all` over a list of sibling subtrees, in document order. -/
def findAllInList (tag : String) (cls : Option String) : List Node → List Node
  | [] => []
  | c :: rest =>
    (if nodeMatches tag cls c then [c] else []) ++ findAllInNode tag cls c
      ++ findAllInList tag cls rest

end

/-- `soup.find(tag, ...)`: the first matching descendant, if any. -/
def findInNode (tag : String) (cls : Option String) (n : Node) : Option Node :=
  (findAllInNode tag cls n).head?

mutual

/-- All `img` descendants of a node paired with their direct parent
element, in document order (`content.find_all("img")` plus Python
`image.parent` for each hit). -/
def imgsWithParentNode : Node → List (Node × Node)
  | .text _ => []
  | .elem t a cs => imgsWithParentList (.elem t a cs) cs

/-- Helper walking sibling subtrees below a known parent. -/
def imgsWithParentList (parent : Node) : List Node → List (Node × Node)
  | [] => []
  | c :: rest =>
    (if nodeMatches "img" none c then [(c, parent)] else [])
      ++ imgsWithParentNode c ++ imgsWithParentList parent rest

end

/-! ## World state and effect model -/

/-- Outcome of one network request (the `requests` oracle). -/
inductive FetchResult where
  | success (text : String) (content : ByteSeq)
  | httpFailure
  | timeout
deriving DecidableEq

/-- Python exceptions relevant to the program. `downloader` is the
program's own `DownloaderException`; `httpError` is `requests.HTTPError`
(raised by `raise_for_status`); `timeoutError` is
`requests.exceptions.Timeout`, which is not a subclass of
`requests.HTTPError`; `valueError` / `indexError` come from `int()` and
list indexing. -/
inductive PyErr where
  | downloader (msg : String)
  | httpError
  | timeoutError
  | valueError
  | indexError
deriving DecidableEq

/-- The observable state: the flat-file cache (text files for pages, byte
files for images — the two never collide because their derived names end
in `.html` and `.bin` respectively), the ordered log of image-file write
events, and the ordered log of network requests as (url, cache path)
pairs. -/
structure World where
  cacheText : List (String × String)
  cacheBin : List (String × ByteSeq)
  imageWrites : List (String × ByteSeq)
  fetchLog : List (String × String)
deriving DecidableEq

instance {ε α : Type} [DecidableEq ε] [DecidableEq α] :
    DecidableEq (Except ε α) := fun x y =>
  match x, y with
  | .ok a, .ok b =>
    if h : a = b then .isTrue (by rw [h])
    else .isFalse (by intro hc; cases hc; exact h rfl)
  | .error a, .error b =>
    if h : a = b then .isTrue (by rw [h])
    else .isFalse (by intro hc; cases hc; exact h rfl)
  | .ok _, .error _ => .isFalse (by intro hc; cases hc)
  | .error _, .ok _ => .isFalse (by intro hc; cases hc)

/-- A computation returning `α` and the updated world, or a Python
exception together with the world at raise time (files already written
persist through an exception). -/
abbrev PyResult (α : Type) : Type := Except (PyErr × World) (α × World)

namespace DownloaderApp

/-- `DownloaderApp.PAGE_ROOT`. -/
def PAGE_ROOT : String := "https://boli-blog.pl/"

/-- `DownloaderApp.CACHE_DIR`. -/
def CACHE_DIR : String := "cache"

/-- `DownloaderApp.IMAGES_DIR`. -/
def IMAGES_DIR : String := "images"

/-- `DownloaderApp.FILTER_LIST` (only used by commented-out dead code). -/
def FILTER_LIST : List String := ["http://nedroid.com/"]

/-- `DownloaderApp.CONTENT_SOURCES`: the image-hosting allow-list. -/
def CONTENT_SOURCES : List String := ["googleusercontent.com", "blogspot.com"]

/-- `DownloadItem` (year, month, archive page URL). -/
structure DownloadItem where
  year : Nat
  month : Nat
  href : String
deriving DecidableEq

/-- `__request_data`: perform the request; `raise_for_status` turns a
non-success status into `HTTPError`; a timeout raises
`requests.exceptions.Timeout`. `DOWNLOAD_DELAY` is 0, so no sleep. -/
def requestData (net : String → FetchResult) (href : String) :
    Except PyErr (String × ByteSeq) :=
  match net href with
  | .success t b => .ok (t, b)
  | .httpFailure => .error .httpError
  | .timeout => .error .timeoutError

/-- Cache path of a page: URL with `:` and `/` replaced by `_`, suffixed
`.html`, under `CACHE_DIR`. -/
def pageFilePath (href : String) : String :=
  CACHE_DIR ++ "/" ++ pyReplaceChar '/' '_' (pyReplaceChar ':' '_' href) ++ ".html"

/-- Cache path of an image: SHA-256 hex digest of the URL, suffixed
`.bin`, under `CACHE_DIR`. -/
def imageFilePath (href : String) : String :=
  CACHE_DIR ++ "/" ++ sha256Hex (utf8Encode href) ++ ".bin"

/-- `__download_page`: on a cache hit (when `use_cache`) return the file's
contents; otherwise fetch, persist the text, and return it. -/
def downloadPage (net : String → FetchResult) (href : String)
    (useCache : Bool) (w : World) : PyResult String :=
  let filePath := pageFilePath href
  match (if useCache then assocLookup filePath w.cacheText else none) with
  | some s => .ok (s, w)
  | none =>
    let w1 : World := { w with fetchLog := w.fetchLog ++ [(href, filePath)] }
    match requestData net href with
    | .error e => .error (e, w1)
    | .ok (pageText, _) =>
      .ok (pageText, { w1 with cacheText := (filePath, pageText) :: w1.cacheText })

/-- `__download_image`: same read-through/write-through discipline with the
hash-derived path and raw bytes. -/
def downloadImage (net : String → FetchResult) (href : String)
    (useCache : Bool) (w : World) : PyResult ByteSeq :=
  let filePath := imageFilePath href
  match (if useCache then assocLookup filePath w.cacheBin else none) with
  | some b => .ok (b, w)
  | none =>
    let w1 : World := { w with fetchLog := w.fetchLog ++ [(href, filePath)] }
    match requestData net href with
    | .error e => .error (e, w1)
    | .ok (_, content) =>
      .ok (content, { w1 with cacheBin := (filePath, content) :: w1.cacheBin })

/-! ## Image classification (app.py lines 181-207) -/

/-- `b"\x89PNG"`. -/
def pngMagic : ByteSeq := [0x89, 0x50, 0x4E, 0x47]

/-- `b"\xff\xd8\xff\xe0\x00\x10JFIF"`. -/
def jfifMagic : ByteSeq :=
  [0xFF, 0xD8, 0xFF, 0xE0, 0x00, 0x10, 0x4A, 0x46, 0x49, 0x46]

/-- `b"GIF89a"`. -/
def gif89aMagic : ByteSeq := [0x47, 0x49, 0x46, 0x38, 0x39, 0x61]

/-- The signature-sniffing chain over `subset = image_data[0:32]`:
PNG, then JPEG/JFIF, then GIF89a; otherwise the placeholder `.dat`. -/
def sniffExt (imageData : ByteSeq) : String :=
  let subset := List.take 32 imageData
  if List.take 4 subset = pngMagic then ".png"
  else if List.take 10 subset = jfifMagic then ".jpg"
  else if List.take 6 subset = gif89aMagic then ".gif"
  else ".dat"

/-- Full extension choice: sniff first; if unknown, fall back to the
extension of the URL's path; if that is empty, `.dat`. -/
def chooseExt (imageData : ByteSeq) (imageSource : String) : String :=
  let ext := sniffExt imageData
  if ext = ".dat" then
    let ext2 := splitextExt (urlparsePath imageSource)
    if ext2.length = 0 then ".dat" else ext2
  else ext

/-- The allow-list test (loop over `CONTENT_SOURCES` with substring
search). -/
def sourceValid (imageSource : String) : Bool :=
  CONTENT_SOURCES.any (fun s => pyContains imageSource s)

/-- Base name of an output image: zero-padded year (4), month (2), the
10-digit post id string, and the subindex (4). -/
def imageFileName (item : DownloadItem) (idString : String) (subid : Nat) :
    String :=
  pyZeroPad 4 item.year ++ "-" ++ pyZeroPad 2 item.month ++ "-" ++ idString
    ++ "-" ++ pyZeroPad 4 subid

/-- The per-post image loop (app.py lines 158-217): skip candidates not on
the allow-list, download the rest, classify, and write; `subid` counts only
written files. -/
def processImagesLoop (net : String → FetchResult) (item : DownloadItem)
    (idString : String) : Nat → List String → World → PyResult Unit
  | _, [], w => .ok ((), w)
  | subid, imageSource :: rest, w =>
    if sourceValid imageSource = false then
      processImagesLoop net item idString subid rest w
    else
      match downloadImage net imageSource true w with
      | .error e => .error e
      | .ok (imageData, w1) =>
        let ext := chooseExt imageData imageSource
        let filePath := IMAGES_DIR ++ "/" ++ imageFileName item idString subid ++ ext
        processImagesLoop net item idString (subid + 1) rest
          { w1 with imageWrites := w1.imageWrites ++ [(filePath, imageData)] }

/-! ## Post processing (app.py lines 112-217) -/

/-- The post-id derivation: split on `-`, demand exactly two tokens, parse
the second as an integer and zero-pad it to 10 digits. -/
def derivePostIdString (postId : String) : Except PyErr String :=
  let idTokens := pySplitOn '-' postId
  if idTokens.length ≠ 2 then .error (.downloader "Unsupported ID format")
  else
    match pyInt (idTokens.getD 1 "") with
    | none => .error .valueError
    | some n => .ok (pyZeroPad 10 n)

/-- The image-source collection loop (app.py lines 133-156): every `img`
must have a `src`; when the direct parent is an `a`, its `href` is a
further candidate. -/
def collectImageSources : List (Node × Node) → Except PyErr (List String)
  | [] => .ok []
  | (img, parent) :: rest =>
    match assocLookup "src" img.attrsOf with
    | none => .error (.downloader "Image missing SRC")
    | some src =>
      if parent.tagName == "a" then
        match assocLookup "href" parent.attrsOf with
        | none => .error (.downloader "Image parent missing SRC")
        | some parentHref =>
          match collectImageSources rest with
          | .error e => .error e
          | .ok tl => .ok (src :: parentHref :: tl)
      else
        match collectImageSources rest with
        | .error e => .error e
        | .ok tl => .ok (src :: tl)

/-- `__process_post`: id derivation, fetch the post page (cached), locate
the content block, collect image source candidates, then run the image
loop. -/
def processPost (net : String → FetchResult) (parse : String → Node)
    (item : DownloadItem) (postId postHref : String) (w : World) :
    PyResult Unit :=
  match derivePostIdString postId with
  | .error e => .error (e, w)
  | .ok idString =>
    match downloadPage net postHref true w with
    | .error e => .error e
    | .ok (pageText, w1) =>
      match findInNode "div" (some "entry-content") (parse pageText) with
      | none => .error (.downloader "Content not found", w1)
      | some content =>
        match collectImageSources (imgsWithParentNode content) with
        | .error e => .error (e, w1)
        | .ok imageSources =>
          processImagesLoop net item idString 0 imageSources w1

/-! ## Item processing (app.py lines 62-110) -/

/-- Per-article extraction inside `__process_item`: the article's `id`
attribute, its `h1.entry-title`, the anchor inside the title, and that
anchor's `href`; each absence raises `DownloaderException`. -/
def extractPostRef (article : Node) : Except PyErr (String × String) :=
  match assocLookup "id" article.attrsOf with
  | none => .error (.downloader "Article missing ID")
  | some postId =>
    match findInNode "h1" (some "entry-title") article with
    | none => .error (.downloader "Article title not found in article")
    | some title =>
      match findInNode "a" none title with
      | none => .error (.downloader "Article address not found in article")
      | some articleA =>
        match assocLookup "href" articleA.attrsOf with
        | none => .error (.downloader "Article address missing HREF")
        | some postHref => .ok (postId, postHref)

/-- The article loop of `__process_item`. -/
def processArticles (net : String → FetchResult) (parse : String → Node)
    (item : DownloadItem) : List Node → World → PyResult Unit
  | [], w => .ok ((), w)
  | article :: rest, w =>
    match extractPostRef article with
    | .error e => .error (e, w)
    | .ok (postId, postHref) =>
      match processPost net parse item postId postHref w with
      | .error e => .error e
      | .ok (_, w1) => processArticles net parse item rest w1

/-- `__process_item`: fetch the item's listing page with
`use_cache = False if refresh else True`, then process each
`article.post`. -/
def processItem (net : String → FetchResult) (parse : String → Node)
    (item : DownloadItem) (refresh : Bool) (w : World) : PyResult Unit :=
  match downloadPage net item.href (if refresh then false else true) w with
  | .error e => .error e
  | .ok (pageText, w1) =>
    processArticles net parse item
      (findAllInNode "article" (some "post") (parse pageText)) w1

/-- The loop of `__process_items` over all items but the popped last one
(each with `refresh = False`). -/
def processItemsLoop (net : String → FetchResult) (parse : String → Node) :
    List DownloadItem → World → PyResult Unit
  | [], w => .ok ((), w)
  | item :: rest, w =>
    match processItem net parse item false w with
    | .error e => .error e
    | .ok (_, w1) => processItemsLoop net parse rest w1

/-- `__process_items`: nothing on an empty list; otherwise pop the last
item, process the rest with caching, then the last with `refresh = True`. -/
def processItems (net : String → FetchResult) (parse : String → Node)
    (items : List DownloadItem) (w : World) : PyResult Unit :=
  match items.getLast? with
  | none => .ok ((), w)
  | some lastItem =>
    match processItemsLoop net parse items.dropLast w with
    | .error e => .error e
    | .ok (_, w1) => processItem net parse lastItem true w1

/-! ## Root page (app.py lines 219-249) -/

/-- Per-anchor parsing in `__download_root_page`: take the `href`, split on
`/`, drop empty tokens, reverse; `DownloadItem(int(tokens[1]),
int(tokens[0]), href)` with Python's left-to-right evaluation and its
`IndexError` / `ValueError` failures. -/
def parseArchiveAnchor (anchor : Node) : Except PyErr DownloadItem :=
  match assocLookup "href" anchor.attrsOf with
  | none => .error (.downloader "Archive list item missing HREF")
  | some itemAddress =>
    let tokens := ((pySplitOn '/' itemAddress).filter (· ≠ "")).reverse
    match tokens.get? 1 with
    | none => .error .indexError
    | some t1 =>
      match pyInt t1 with
      | none => .error .valueError
      | some year =>
        match tokens.get? 0 with
        | none => .error .indexError
        | some t0 =>
          match pyInt t0 with
          | none => .error .valueError
          | some month => .ok ⟨year, month, itemAddress⟩

/-- The anchor loop of `__download_root_page` (given the already-reversed
anchor list). -/
def buildArchiveItems : List Node → Except PyErr (List DownloadItem)
  | [] => .ok []
  | anchor :: rest =>
    match parseArchiveAnchor anchor with
    | .error e => .error e
    | .ok item =>
      match buildArchiveItems rest with
      | .error e => .error e
      | .ok tl => .ok (item :: tl)

/-- Archive extraction from the parsed root page: find
`aside.widget_archive` (its absence is fatal), take all its anchors, and
walk them in reversed document order. (`find_all` never returns `None`,
so the `"Archive list is invalid"` branch at app.py line 231 is
unreachable.) -/
def extractArchiveItems (soup : Node) : Except PyErr (List DownloadItem) :=
  match findInNode "aside" (some "widget_archive") soup with
  | none => .error (.downloader "Archive not found")
  | some archive =>
    buildArchiveItems (findAllInNode "a" none archive).reverse

/-- `__download_root_page`: fetch `PAGE_ROOT` (cached) and extract the
archive items. -/
def downloadRootPage (net : String → FetchResult) (parse : String → Node)
    (w : World) : PyResult (List DownloadItem) :=
  match downloadPage net PAGE_ROOT true w with
  | .error e => .error e
  | .ok (pageText, w1) =>
    match extractArchiveItems (parse pageText) with
    | .error e => .error (e, w1)
    | .ok items => .ok (items, w1)

/-! ## Run (app.py lines 41-60) -/

/-- The body of the `try` block in `run` (directory creation is not
modelled; it cannot fail in the model). -/
def runBody (net : String → FetchResult) (parse : String → Node)
    (w : World) : PyResult Unit :=
  match downloadRootPage net parse w with
  | .error e => .error e
  | .ok (items, w1) => processItems net parse items w1

/-- `run`: returns 0 on completion; the `except (DownloaderException,
requests.HTTPError)` clause turns exactly those two exceptions into return
value 1; any other exception propagates out of `run`. -/
def run (net : String → FetchResult) (parse : String → Node)
    (w : World) : Except (PyErr × World) (Nat × World) :=
  match runBody net parse w with
  | .ok (_, w1) => .ok (0, w1)
  | .error (.downloader _, w1) => .ok (1, w1)
  | .error (.httpError, w1) => .ok (1, w1)
  | .error (e, w1) => .error (e, w1)

end DownloaderApp

namespace DownloaderApp

/-! ## Spec-side definitions (for refinement statements) -/

/-- Stated from the spec's words: the year and month of an archive item
are parsed from the last two non-empty path segments of its href
(`.../<year>/<month>/`). -/
def specArchiveItem (href : String) : Option DownloadItem :=
  let segs := (pySplitOn '/' href).filter (· ≠ "")
  if 2 ≤ segs.length then
    match segs.get? (segs.length - 2), segs.get? (segs.length - 1) with
    | some ys, some ms =>
      match pyInt ys, pyInt ms with
      | some y, some m => some ⟨y, m, href⟩
      | _, _ => none
    | _, _ => none
  else none

/-- Stated from the spec's words: one `DownloadItem` per anchor, each
parsed by `specArchiveItem` from the anchor's href. -/
def specArchiveItemsOf : List Node → Option (List DownloadItem)
  | [] => some []
  | a :: rest =>
    match (assocLookup "href" a.attrsOf).bind specArchiveItem,
        specArchiveItemsOf rest with
    | some it, some tl => some (it :: tl)
    | _, _ => none

/-! ## Fetch-accounting predicates -/

/-- The cache keys (file paths) of the page-cache part of the world. -/
def cacheKeysT (w : World) : List String := w.cacheText.map Prod.fst

/-- The cache keys (file paths) of the image-cache part of the world. -/
def cacheKeysB (w : World) : List String := w.cacheBin.map Prod.fst

/-- A fetch-log entry `(url, path)` that targeted a resource whose cache
file did not exist in `w`. -/
def uncachedFetch (w : World) (e : String × String) : Prop :=
  (e.2 = pageFilePath e.1 ∧ e.2 ∉ cacheKeysT w) ∨
  (e.2 = imageFilePath e.1 ∧ e.2 ∉ cacheKeysB w)

/-- Between `w` and `w1` the fetch log grew exactly by `L`, every fetch in
`L` was of a resource uncached in `w`, and the cache only grew. -/
def FetchSpec (w w1 : World) (L : List (String × String)) : Prop :=
  w1.fetchLog = w.fetchLog ++ L ∧
  (∀ e ∈ L, uncachedFetch w e) ∧
  cacheKeysT w ⊆ cacheKeysT w1 ∧
  cacheKeysB w ⊆ cacheKeysB w1

/-! ## Concrete scenario constants (used to instantiate theorems) -/

/-- The empty starting world: no cache, no writes, no fetches. -/
def emptyWorld : World := ⟨[], [], [], []⟩

/-- A network where every request times out. -/
def netTimeoutAll : String → FetchResult := fun _ => .timeout

/-- A network where every request yields a non-success HTTP status. -/
def netHttpFailAll : String → FetchResult := fun _ => .httpFailure

/-- A sample anchor element with an href. -/
def sampleAnchor (h : String) : Node := .elem "a" [("href", h)] []

/-- A sample root page: an archive widget with two monthly anchors,
newest first (as the site lists them). -/
def sampleRootDom : Node :=
  .elem "html" []
    [.elem "aside" [("class", "widget_archive")]
      [sampleAnchor "https://boli-blog.pl/2023/10/",
       sampleAnchor "https://boli-blog.pl/2011/04/"]]

/-- A sample listing page with a single well-formed post article. -/
def sampleListingDom (pid href : String) : Node :=
  .elem "html" []
    [.elem "article" [("class", "post"), ("id", pid)]
      [.elem "h1" [("class", "entry-title")]
        [.elem "a" [("href", href)] [.text "title"]]]]

/-- A sample post page: a content block with one image. -/
def samplePostDom (src : String) : Node :=
  .elem "html" []
    [.elem "div" [("class", "entry-content")]
      [.elem "img" [("src", src)] []]]

/-- The network of the sample site. -/
def sampleNet : String → FetchResult := fun u =>
  if u = "https://boli-blog.pl/" then .success "ROOT" []
  else if u = "https://boli-blog.pl/2023/10/" then .success "L2310" []
  else if u = "https://boli-blog.pl/2011/04/" then .success "L1104" []
  else if u = "https://boli-blog.pl/p1" then .success "P1" []
  else if u = "https://boli-blog.pl/p2" then .success "P2" []
  else if u = "https://img.blogspot.com/a" then
    .success "" [0x89, 0x50, 0x4E, 0x47, 9]
  else .success "" [1, 2, 3]

/-- The parser oracle of the sample site. -/
def sampleParse : String → Node := fun t =>
  if t = "ROOT" then sampleRootDom
  else if t = "L2310" then sampleListingDom "post-7" "https://boli-blog.pl/p1"
  else if t = "L1104" then sampleListingDom "post-8" "https://boli-blog.pl/p2"
  else if t = "P1" then samplePostDom "https://img.blogspot.com/a"
  else if t = "P2" then samplePostDom "https://img.blogspot.com/a"
  else .text "unparsed"

end DownloaderApp

namespace DownloaderApp

/-! ## Helper lemmas -/

/-- `sniffExt` in branch form over prefixes of the raw data (sound because
all three signatures are at most 32 bytes long). -/
theorem sniffExt_eq (data : ByteSeq) :
    sniffExt data =
      if List.take 4 data = pngMagic then ".png"
      else if List.take 10 data = jfifMagic then ".jpg"
      else if List.take 6 data = gif89aMagic then ".gif"
      else ".dat" := by
  unfold sniffExt
  simp only [List.take_take]
  norm_num

/-- Flattened form of `downloadPage` (fetch-failure worlds made explicit). -/
theorem downloadPage_eq (net : String → FetchResult) (href : String)
    (u : Bool) (w : World) :
    downloadPage net href u w =
      match (if u = true then assocLookup (pageFilePath href) w.cacheText
             else none) with
      | some s => .ok (s, w)
      | none =>
        match net href with
        | .success t _ =>
          .ok (t, { w with cacheText := (pageFilePath href, t) :: w.cacheText,
                           fetchLog := w.fetchLog ++ [(href, pageFilePath href)] })
        | .httpFailure =>
          .error (.httpError,
            { w with fetchLog := w.fetchLog ++ [(href, pageFilePath href)] })
        | .timeout =>
          .error (.timeoutError,
            { w with fetchLog := w.fetchLog ++ [(href, pageFilePath href)] }) := by
  simp only [downloadPage, requestData]
  rcases hc : (if u = true then assocLookup (pageFilePath href) w.cacheText
               else none) with _ | s
  · rcases hn : net href with ⟨t2, c2⟩ | _ | _ <;> rfl
  · rfl

/-- Flattened form of `downloadImage`. -/
theorem downloadImage_eq (net : String → FetchResult) (href : String)
    (u : Bool) (w : World) :
    downloadImage net href u w =
      match (if u = true then assocLookup (imageFilePath href) w.cacheBin
             else none) with
      | some b => .ok (b, w)
      | none =>
        match net href with
        | .success _ c =>
          .ok (c, { w with cacheBin := (imageFilePath href, c) :: w.cacheBin,
                           fetchLog := w.fetchLog ++ [(href, imageFilePath href)] })
        | .httpFailure =>
          .error (.httpError,
            { w with fetchLog := w.fetchLog ++ [(href, imageFilePath href)] })
        | .timeout =>
          .error (.timeoutError,
            { w with fetchLog := w.fetchLog ++ [(href, imageFilePath href)] }) := by
  simp only [downloadImage, requestData]
  rcases hc : (if u = true then assocLookup (imageFilePath href) w.cacheBin
               else none) with _ | b
  · rcases hn : net href with ⟨t2, c2⟩ | _ | _ <;> rfl
  · rfl

/-- A successful image download never touches the image-output directory. -/
theorem downloadImage_ok_imageWrites {net : String → FetchResult}
    {href : String} {u : Bool} {w : World} {d : ByteSeq} {w1 : World}
    (h : downloadImage net href u w = .ok (d, w1)) :
    w1.imageWrites = w.imageWrites := by
  rw [downloadImage_eq] at h
  rcases hc : (if u = true then assocLookup (imageFilePath href) w.cacheBin
               else none) with _ | b
  · rw [hc] at h
    rcases hn : net href with ⟨t, c⟩ | _ | _ <;> rw [hn] at h <;> cases h <;> rfl
  · rw [hc] at h; cases h; rfl

/-- A successful page download never touches the image-output directory. -/
theorem downloadPage_ok_imageWrites {net : String → FetchResult}
    {href : String} {u : Bool} {w : World} {t : String} {w1 : World}
    (h : downloadPage net href u w = .ok (t, w1)) :
    w1.imageWrites = w.imageWrites := by
  rw [downloadPage_eq] at h
  rcases hc : (if u = true then assocLookup (pageFilePath href) w.cacheText
               else none) with _ | s
  · rw [hc] at h
    rcases hn : net href with ⟨a, c⟩ | _ | _ <;> rw [hn] at h <;> cases h <;> rfl
  · rw [hc] at h; cases h; rfl

/-- Shape of the image writes of one whole run of the per-post image loop:
one write per allow-listed candidate, in encounter order, with subindexes
counting up from the starting `subid`. -/
theorem processImagesLoop_writes (net : String → FetchResult)
    (item : DownloadItem) (idString : String) :
    ∀ (sources : List String) (subid : Nat) (w w1 : World),
      processImagesLoop net item idString subid sources w = .ok ((), w1) →
      ∃ L, w1.imageWrites = w.imageWrites ++ L ∧
        L.length = (sources.filter (fun s => sourceValid s)).length ∧
        ∀ i (hi : i < L.length), ∃ ext data,
          L.get ⟨i, hi⟩ =
            (IMAGES_DIR ++ "/" ++ imageFileName item idString (subid + i) ++ ext,
             data) := by
  intro sources
  induction sources with
  | nil =>
    intro subid w w1 h
    unfold processImagesLoop at h
    cases h
    exact ⟨[], by simp, by simp, by intro i hi; cases hi⟩
  | cons src rest ih =>
    intro subid w w1 h
    unfold processImagesLoop at h
    by_cases hv : sourceValid src = false
    · rw [if_pos hv] at h
      obtain ⟨L, happ, hlen, hidx⟩ := ih subid w w1 h
      refine ⟨L, happ, ?_, hidx⟩
      rw [List.filter_cons, if_neg (by simp [hv])]
      exact hlen
    · rw [if_neg hv] at h
      rcases hdl : downloadImage net src true w with e | p
      · rw [hdl] at h; cases h
      · obtain ⟨d, wm⟩ := p
        rw [hdl] at h
        obtain ⟨L, happ, hlen, hidx⟩ := ih (subid + 1) _ w1 h
        have hmw : wm.imageWrites = w.imageWrites := downloadImage_ok_imageWrites hdl
        refine ⟨(IMAGES_DIR ++ "/" ++ imageFileName item idString subid
                  ++ chooseExt d src, d) :: L, ?_, ?_, ?_⟩
        · simpa [hmw, List.append_assoc] using happ
        · rw [List.filter_cons, if_pos (by simp at hv; simp [hv])]
          simp [hlen]
        · intro i hi
          match i with
          | 0 => exact ⟨chooseExt d src, d, by simp⟩
          | j + 1 =>
            obtain ⟨ext, data, hget⟩ := hidx j (by simpa using hi)
            refine ⟨ext, data, ?_⟩
            have : subid + 1 + j = subid + (j + 1) := by omega
            simpa [this] using hget

/-! ## Claim theorems -/

/-- A string of length zero is the empty string. -/
theorem string_eq_empty_of_length {s : String} (h : s.length = 0) : s = "" := by
  cases s with
  | mk data =>
    cases data with
    | nil => rfl
    | cons c cs => simp [String.length] at h

/-- C2 counterexample: a GIF87a-prefixed image is classified `.dat` by the
sniffing chain, not `.gif` — the code only matches the `GIF89a` signature
(app.py line 189), so the claim that GIF87a maps to `.gif` is false. -/
theorem sniff_gif87a_cex :
    sniffExt [0x47, 0x49, 0x46, 0x38, 0x37, 0x61, 0x00, 0x3B] = ".dat" ∧
    ¬ sniffExt [0x47, 0x49, 0x46, 0x38, 0x37, 0x61, 0x00, 0x3B] = ".gif" := by
  decide

/-- C2 (amended): byte-signature sniffing of the first 32 bytes checks
three fixed signatures in order and assigns PNG magic bytes `.png`, the
JPEG/JFIF magic sequence `.jpg`, and GIF89a magic bytes `.gif` (GIF87a is
not recognized and falls through to `.dat`). -/
theorem sniff_signature_chain (data : ByteSeq) :
    (List.take 4 data = pngMagic → sniffExt data = ".png") ∧
    (List.take 4 data ≠ pngMagic → List.take 10 data = jfifMagic →
      sniffExt data = ".jpg") ∧
    (List.take 4 data ≠ pngMagic → List.take 10 data ≠ jfifMagic →
      List.take 6 data = gif89aMagic → sniffExt data = ".gif") ∧
    (List.take 4 data ≠ pngMagic → List.take 10 data ≠ jfifMagic →
      List.take 6 data ≠ gif89aMagic → sniffExt data = ".dat") := by
  refine ⟨?_, ?_, ?_, ?_⟩
  · intro h1; rw [sniffExt_eq, if_pos h1]
  · intro h1 h2; rw [sniffExt_eq, if_neg h1, if_pos h2]
  · intro h1 h2 h3; rw [sniffExt_eq, if_neg h1, if_neg h2, if_pos h3]
  · intro h1 h2 h3; rw [sniffExt_eq, if_neg h1, if_neg h2, if_neg h3]

/-- C2 witness: the PNG case of the sniffing chain at a concrete input. -/
theorem sniff_signature_chain_witness :
    List.take 4 [0x89, 0x50, 0x4E, 0x47, 0x0D, 0x0A] = pngMagic ∧
    sniffExt [0x89, 0x50, 0x4E, 0x47, 0x0D, 0x0A] = ".png" :=
  ⟨by decide, (sniff_signature_chain [0x89, 0x50, 0x4E, 0x47, 0x0D, 0x0A]).1
    (by decide)⟩

/-- C6: the output extension is the sniffed one when a signature matches
(overriding the URL); otherwise the URL path's extension; otherwise the
placeholder `.dat`; and every allow-listed, successfully downloaded
candidate produces exactly one write with that extension. -/
theorem extension_selection_spec (data : ByteSeq) (src : String) :
    (sniffExt data ≠ ".dat" → chooseExt data src = sniffExt data) ∧
    (sniffExt data = ".dat" → splitextExt (urlparsePath src) ≠ "" →
      chooseExt data src = splitextExt (urlparsePath src)) ∧
    (sniffExt data = ".dat" → splitextExt (urlparsePath src) = "" →
      chooseExt data src = ".dat") ∧
    (∀ (net : String → FetchResult) (item : DownloadItem)
        (idString : String) (subid : Nat) (rest : List String)
        (w w1 : World) (d : ByteSeq),
      sourceValid src = true →
      downloadImage net src true w = .ok (d, w1) →
      processImagesLoop net item idString subid (src :: rest) w =
        processImagesLoop net item idString (subid + 1) rest
          { w1 with imageWrites := w1.imageWrites ++
              [(IMAGES_DIR ++ "/" ++ imageFileName item idString subid
                  ++ chooseExt d src, d)] }) := by
  refine ⟨?_, ?_, ?_, ?_⟩
  · intro h1
    simp only [chooseExt]
    rw [if_neg h1]
  · intro h1 h2
    simp only [chooseExt]
    rw [if_pos h1, if_neg (fun hz => h2 (string_eq_empty_of_length hz))]
  · intro h1 h2
    simp only [chooseExt]
    rw [if_pos h1, if_pos (by rw [h2]; rfl)]
  · intro net item idString subid rest w w1 d hv hdl
    simp only [processImagesLoop]
    rw [if_neg (by simp [hv]), hdl]

/-- C6 witness: an unrecognized byte signature with a `.webp` URL path at
a concrete input. -/
theorem extension_selection_spec_witness :
    sniffExt [0x52, 0x49, 0x46, 0x46] = ".dat" ∧
    splitextExt (urlparsePath "https://x.blogspot.com/a/b.webp") = ".webp" ∧
    chooseExt [0x52, 0x49, 0x46, 0x46] "https://x.blogspot.com/a/b.webp"
      = ".webp" := by
  refine ⟨by decide, by decide, ?_⟩
  have h := (extension_selection_spec [0x52, 0x49, 0x46, 0x46]
    "https://x.blogspot.com/a/b.webp").2.1 (by decide) (by decide)
  rw [h]
  decide

/-- C9: a candidate whose URL contains none of the allow-listed substrings
(`googleusercontent.com`, `blogspot.com`) fails `sourceValid`, and the
loop step then continues unchanged: no fetch, no write, no error, same
subindex. -/
theorem disallowed_source_skipped (src : String) (net : String → FetchResult)
    (item : DownloadItem) (idString : String) (subid : Nat)
    (rest : List String) (w : World) :
    (sourceValid src = false ↔
      pyContains src "googleusercontent.com" = false ∧
      pyContains src "blogspot.com" = false) ∧
    (sourceValid src = false →
      processImagesLoop net item idString subid (src :: rest) w =
        processImagesLoop net item idString subid rest w) := by
  constructor
  · simp [sourceValid, CONTENT_SOURCES]
  · intro h
    simp only [processImagesLoop]
    rw [if_pos h]

/-- C9 witness: a nedroid.com URL is skipped at a concrete input. -/
theorem disallowed_source_skipped_witness :
    sourceValid "http://nedroid.com/comics/a.png" = false ∧
    processImagesLoop DownloaderApp.sampleNet ⟨2023, 10, "u"⟩ "0000000007" 0
        ["http://nedroid.com/comics/a.png"] emptyWorld =
      processImagesLoop DownloaderApp.sampleNet ⟨2023, 10, "u"⟩ "0000000007" 0
        [] emptyWorld :=
  ⟨by decide,
   (disallowed_source_skipped "http://nedroid.com/comics/a.png"
      DownloaderApp.sampleNet ⟨2023, 10, "u"⟩ "0000000007" 0 [] emptyWorld).2
     (by decide)⟩

/-- C10: on a completed per-post image loop, the written files are exactly
one per allow-listed candidate, in encounter order, with subindexes the
consecutive values 0..k-1 (skipped candidates consume no subindex). -/
theorem subindex_consecutive (net : String → FetchResult)
    (item : DownloadItem) (idString : String) (sources : List String)
    (w w1 : World)
    (hok : processImagesLoop net item idString 0 sources w = .ok ((), w1)) :
    ∃ L, w1.imageWrites = w.imageWrites ++ L ∧
      L.length = (sources.filter (fun s => sourceValid s)).length ∧
      ∀ i (hi : i < L.length), ∃ ext data,
        L.get ⟨i, hi⟩ =
          (IMAGES_DIR ++ "/" ++ imageFileName item idString i ++ ext, data) := by
  obtain ⟨L, h1, h2, h3⟩ :=
    processImagesLoop_writes net item idString sources 0 w w1 hok
  refine ⟨L, h1, h2, fun i hi => ?_⟩
  obtain ⟨ext, data, hget⟩ := h3 i hi
  exact ⟨ext, data, by simpa using hget⟩

/-- C10 witness: a concrete loop with one skipped and one downloaded
candidate writes exactly the file with subindex 0. -/
theorem subindex_consecutive_witness :
    processImagesLoop DownloaderApp.sampleNet ⟨2023, 10, "u"⟩ "0000000007" 0
        ["http://nedroid.com/x.png", "https://img.blogspot.com/a"] emptyWorld =
      .ok ((), ⟨[],
        [("cache/74dcaec248bd4c061e1b17516657004539782abb39267fee331d8a5d6c09a5f0.bin",
          [137, 80, 78, 71, 9])],
        [("images/2023-10-0000000007-0000.png", [137, 80, 78, 71, 9])],
        [("https://img.blogspot.com/a",
          "cache/74dcaec248bd4c061e1b17516657004539782abb39267fee331d8a5d6c09a5f0.bin")]⟩) ∧
    (∃ L, (⟨[],
        [("cache/74dcaec248bd4c061e1b17516657004539782abb39267fee331d8a5d6c09a5f0.bin",
          [137, 80, 78, 71, 9])],
        [("images/2023-10-0000000007-0000.png", [137, 80, 78, 71, 9])],
        [("https://img.blogspot.com/a",
          "cache/74dcaec248bd4c061e1b17516657004539782abb39267fee331d8a5d6c09a5f0.bin")]⟩
          : World).imageWrites = emptyWorld.imageWrites ++ L ∧
      L.length = ((["http://nedroid.com/x.png", "https://img.blogspot.com/a"].filter
        (fun s => DownloaderApp.sourceValid s)).length) ∧
      ∀ i (hi : i < L.length), ∃ ext data,
        L.get ⟨i, hi⟩ = (DownloaderApp.IMAGES_DIR ++ "/"
          ++ DownloaderApp.imageFileName ⟨2023, 10, "u"⟩ "0000000007" i ++ ext,
          data)) :=
  ⟨by decide,
   subindex_consecutive DownloaderApp.sampleNet ⟨2023, 10, "u"⟩ "0000000007"
     ["http://nedroid.com/x.png", "https://img.blogspot.com/a"] emptyWorld
     ⟨[],
       [("cache/74dcaec248bd4c061e1b17516657004539782abb39267fee331d8a5d6c09a5f0.bin",
         [137, 80, 78, 71, 9])],
       [("images/2023-10-0000000007-0000.png", [137, 80, 78, 71, 9])],
       [("https://img.blogspot.com/a",
         "cache/74dcaec248bd4c061e1b17516657004539782abb39267fee331d8a5d6c09a5f0.bin")]⟩
     (by decide)⟩

/-- C7: a post id with exactly two hyphen-separated tokens and numeric
second token derives the 10-digit zero-padded id string; a post id that
does not split into exactly two tokens makes `__process_post` raise; and
on success every written file of the post is named
`<year:4>-<month:2>-<id:10>-<subindex:4><ext>` with the subindex counting
from 0. -/
theorem post_id_naming_spec (postId t1 t2 : String) (n : Nat) :
    (pySplitOn '-' postId = [t1, t2] → pyInt t2 = some n →
      derivePostIdString postId = .ok (pyZeroPad 10 n)) ∧
    ((pySplitOn '-' postId).length ≠ 2 →
      ∀ (net : String → FetchResult) (parse : String → Node)
        (item : DownloadItem) (postHref : String) (w : World),
        processPost net parse item postId postHref w =
          .error (.downloader "Unsupported ID format", w)) ∧
    (∀ (net : String → FetchResult) (parse : String → Node)
        (item : DownloadItem) (postHref : String) (w w1 : World)
        (ids : String),
      derivePostIdString postId = .ok ids →
      processPost net parse item postId postHref w = .ok ((), w1) →
      ∃ L, w1.imageWrites = w.imageWrites ++ L ∧
        ∀ i (hi : i < L.length), ∃ ext data,
          L.get ⟨i, hi⟩ =
            (IMAGES_DIR ++ "/" ++ pyZeroPad 4 item.year ++ "-"
              ++ pyZeroPad 2 item.month ++ "-" ++ ids ++ "-"
              ++ pyZeroPad 4 i ++ ext, data)) := by
  refine ⟨?_, ?_, ?_⟩
  · intro hsplit hint
    simp only [derivePostIdString]
    rw [hsplit]
    simp [hint]
  · intro hlen net parse item postHref w
    simp only [processPost, derivePostIdString]
    rw [if_pos hlen]
  · intro net parse item postHref w w1 ids hid hok
    simp only [processPost, hid] at hok
    rcases hdp : downloadPage net postHref true w with e | p
    · simp only [hdp] at hok; cases hok
    · obtain ⟨pageText, wm⟩ := p
      simp only [hdp] at hok
      rcases hfc : findInNode "div" (some "entry-content") (parse pageText)
        with _ | content
      · simp only [hfc] at hok; cases hok
      · simp only [hfc] at hok
        rcases hcs : collectImageSources (imgsWithParentNode content)
          with e2 | srcs
        · simp only [hcs] at hok; cases hok
        · simp only [hcs] at hok
          obtain ⟨L, h1, _, h3⟩ :=
            processImagesLoop_writes net item ids srcs 0 wm w1 hok
          have hmw : wm.imageWrites = w.imageWrites :=
            downloadPage_ok_imageWrites hdp
          refine ⟨L, by rw [h1, hmw], fun i hi => ?_⟩
          obtain ⟨ext, data, hget⟩ := h3 i hi
          refine ⟨ext, data, ?_⟩
          simpa [imageFileName, String.append_assoc] using hget

/-- C7 witness: the id `post-42` at a concrete input. -/
theorem post_id_naming_spec_witness :
    pySplitOn '-' "post-42" = ["post", "42"] ∧ pyInt "42" = some 42 ∧
    derivePostIdString "post-42" = .ok (pyZeroPad 10 42) ∧
    pyZeroPad 10 42 = "0000000042" :=
  ⟨by decide, by decide,
   (post_id_naming_spec "post-42" "post" "42" 42).1 (by decide) (by decide),
   by decide⟩

/-- C5: the cache store returns an existing file's contents
unconditionally when caching is requested (no freshness check, no network
contact), otherwise fetches, persists the raw result at the derived path,
and returns it; a page's derived name is the URL with `:` and `/` replaced
by `_` suffixed `.html`, an image's the SHA-256 hex digest of the URL
suffixed `.bin`. -/
theorem cache_store_spec (net : String → FetchResult) (href : String)
    (w : World) (s : String) (b : ByteSeq) (t : String) (c : ByteSeq) :
    (assocLookup (pageFilePath href) w.cacheText = some s →
      downloadPage net href true w = .ok (s, w)) ∧
    (assocLookup (pageFilePath href) w.cacheText = none →
      net href = .success t c →
      downloadPage net href true w = .ok (t,
        { w with cacheText := (pageFilePath href, t) :: w.cacheText,
                 fetchLog := w.fetchLog ++ [(href, pageFilePath href)] })) ∧
    (assocLookup (imageFilePath href) w.cacheBin = some b →
      downloadImage net href true w = .ok (b, w)) ∧
    (assocLookup (imageFilePath href) w.cacheBin = none →
      net href = .success t c →
      downloadImage net href true w = .ok (c,
        { w with cacheBin := (imageFilePath href, c) :: w.cacheBin,
                 fetchLog := w.fetchLog ++ [(href, imageFilePath href)] })) ∧
    pageFilePath href =
      "cache/" ++ pyReplaceChar '/' '_' (pyReplaceChar ':' '_' href)
        ++ ".html" ∧
    imageFilePath href = "cache/" ++ sha256Hex (utf8Encode href) ++ ".bin" := by
  refine ⟨?_, ?_, ?_, ?_, rfl, rfl⟩
  · intro h
    rw [downloadPage_eq]
    simp [h]
  · intro h hn
    rw [downloadPage_eq]
    simp [h, hn]
  · intro h
    rw [downloadImage_eq]
    simp [h]
  · intro h hn
    rw [downloadImage_eq]
    simp [h, hn]

/-- C5 witness: concrete cache hits under a network that would time out —
the derived page name and the SHA-256-derived image name (digest
cross-checked against CPython's hashlib) are found and returned with the
world unchanged. -/
theorem cache_store_spec_witness :
    downloadPage netTimeoutAll "https://boli-blog.pl/" true
      ⟨[("cache/https___boli-blog.pl_.html", "CACHEDPAGE")],
       [("cache/0144629c2a41ba881c61f589e171d3c7f8d5f89253f660de7295213cfb455f39.bin",
         [5, 6, 7])], [], []⟩ =
      .ok ("CACHEDPAGE",
        ⟨[("cache/https___boli-blog.pl_.html", "CACHEDPAGE")],
         [("cache/0144629c2a41ba881c61f589e171d3c7f8d5f89253f660de7295213cfb455f39.bin",
           [5, 6, 7])], [], []⟩) ∧
    downloadImage netTimeoutAll
      "https://blogger.googleusercontent.com/img/a/some-image-name" true
      ⟨[("cache/https___boli-blog.pl_.html", "CACHEDPAGE")],
       [("cache/0144629c2a41ba881c61f589e171d3c7f8d5f89253f660de7295213cfb455f39.bin",
         [5, 6, 7])], [], []⟩ =
      .ok ([5, 6, 7],
        ⟨[("cache/https___boli-blog.pl_.html", "CACHEDPAGE")],
         [("cache/0144629c2a41ba881c61f589e171d3c7f8d5f89253f660de7295213cfb455f39.bin",
           [5, 6, 7])], [], []⟩) :=
  ⟨(cache_store_spec netTimeoutAll "https://boli-blog.pl/"
      ⟨[("cache/https___boli-blog.pl_.html", "CACHEDPAGE")],
       [("cache/0144629c2a41ba881c61f589e171d3c7f8d5f89253f660de7295213cfb455f39.bin",
         [5, 6, 7])], [], []⟩ "CACHEDPAGE" [5, 6, 7] "" []).1 (by decide),
   (cache_store_spec netTimeoutAll
      "https://blogger.googleusercontent.com/img/a/some-image-name"
      ⟨[("cache/https___boli-blog.pl_.html", "CACHEDPAGE")],
       [("cache/0144629c2a41ba881c61f589e171d3c7f8d5f89253f660de7295213cfb455f39.bin",
         [5, 6, 7])], [], []⟩ "CACHEDPAGE" [5, 6, 7] "" []).2.2.1 (by decide)⟩

/-- The code's per-anchor parse (reverse the non-empty split tokens, index
1 and 0) agrees with the spec-side `specArchiveItem` (the last two
non-empty path segments) whenever the latter succeeds. -/
theorem parseArchiveAnchor_of_spec {anchor : Node} {href : String}
    {it : DownloadItem}
    (hhref : assocLookup "href" anchor.attrsOf = some href)
    (hspec : specArchiveItem href = some it) :
    parseArchiveAnchor anchor = .ok it := by
  simp only [specArchiveItem] at hspec
  by_cases h2 : 2 ≤ ((pySplitOn '/' href).filter (· ≠ "")).length
  · rw [if_pos h2] at hspec
    rcases hg2 : ((pySplitOn '/' href).filter (· ≠ "")).get?
        (((pySplitOn '/' href).filter (· ≠ "")).length - 2) with _ | ys
    · simp only [hg2] at hspec; cases hspec
    rcases hg1 : ((pySplitOn '/' href).filter (· ≠ "")).get?
        (((pySplitOn '/' href).filter (· ≠ "")).length - 1) with _ | ms
    · simp only [hg2, hg1] at hspec; cases hspec
    simp only [hg2, hg1] at hspec
    rcases hy : pyInt ys with _ | y
    · simp only [hy] at hspec; cases hspec
    rcases hm : pyInt ms with _ | m
    · simp only [hy, hm] at hspec; cases hspec
    simp only [hy, hm, Option.some.injEq] at hspec
    have hr1 : ((pySplitOn '/' href).filter (· ≠ "")).reverse.get? 1 =
        ((pySplitOn '/' href).filter (· ≠ "")).get?
          (((pySplitOn '/' href).filter (· ≠ "")).length - 2) := by
      rw [List.get?_reverse (by omega)]
      all_goals congr 1
    have hr0 : ((pySplitOn '/' href).filter (· ≠ "")).reverse.get? 0 =
        ((pySplitOn '/' href).filter (· ≠ "")).get?
          (((pySplitOn '/' href).filter (· ≠ "")).length - 1) := by
      rw [List.get?_reverse (by omega)]
      all_goals congr 1
    simp only [parseArchiveAnchor, hhref, hr1, hg2, hy, hr0, hg1, hm]
    rw [hspec]
  · rw [if_neg h2] at hspec
    cases hspec

/-- The anchor loop of `__download_root_page` builds exactly the
spec-described items, one per anchor. -/
theorem buildArchiveItems_of_spec :
    ∀ (anchors : List Node) (items : List DownloadItem),
      specArchiveItemsOf anchors = some items →
      buildArchiveItems anchors = .ok items ∧ items.length = anchors.length := by
  intro anchors
  induction anchors with
  | nil =>
    intro items h
    simp only [specArchiveItemsOf] at h
    cases h
    exact ⟨rfl, rfl⟩
  | cons a rest ih =>
    intro items h
    simp only [specArchiveItemsOf] at h
    rcases hb : (assocLookup "href" a.attrsOf).bind specArchiveItem
      with _ | it
    · simp only [hb] at h; cases h
    rcases hr : specArchiveItemsOf rest with _ | tl
    · simp only [hb, hr] at h; cases h
    simp only [hb, hr, Option.some.injEq] at h
    subst h
    rcases hl : assocLookup "href" a.attrsOf with _ | href
    · rw [hl] at hb
      cases hb
    · rw [hl] at hb
      simp only [Option.some_bind] at hb
      have hpa := parseArchiveAnchor_of_spec hl hb
      obtain ⟨hbuild, hlen⟩ := ih tl hr
      constructor
      · simp only [buildArchiveItems, hpa, hbuild]
      · simp [hlen]

/-- C3: when the archive widget is present and every anchor inside it has
an href whose last two non-empty path segments are numeric, extraction
returns exactly one `DownloadItem` per anchor, in reverse document order,
each parsed as the spec describes. -/
theorem archive_extraction_spec (soup archive : Node)
    (specItems : List DownloadItem)
    (hw : findInNode "aside" (some "widget_archive") soup = some archive)
    (hs : specArchiveItemsOf (findAllInNode "a" none archive).reverse =
      some specItems) :
    extractArchiveItems soup = .ok specItems ∧
    specItems.length = (findAllInNode "a" none archive).length := by
  obtain ⟨hbuild, hlen⟩ := buildArchiveItems_of_spec _ _ hs
  constructor
  · simp only [extractArchiveItems, hw, hbuild]
  · simpa using hlen

/-- C3 witness: the sample root page with two archive anchors yields the
two items, oldest first. -/
theorem archive_extraction_spec_witness :
    DownloaderApp.extractArchiveItems DownloaderApp.sampleRootDom =
      .ok [⟨2011, 4, "https://boli-blog.pl/2011/04/"⟩,
           ⟨2023, 10, "https://boli-blog.pl/2023/10/"⟩] ∧
    ([⟨2011, 4, "https://boli-blog.pl/2011/04/"⟩,
      ⟨2023, 10, "https://boli-blog.pl/2023/10/"⟩] :
        List DownloaderApp.DownloadItem).length =
      (findAllInNode "a" none
        (.elem "aside" [("class", "widget_archive")]
          [DownloaderApp.sampleAnchor "https://boli-blog.pl/2023/10/",
           DownloaderApp.sampleAnchor "https://boli-blog.pl/2011/04/"])).length :=
  archive_extraction_spec DownloaderApp.sampleRootDom
    (.elem "aside" [("class", "widget_archive")]
      [DownloaderApp.sampleAnchor "https://boli-blog.pl/2023/10/",
       DownloaderApp.sampleAnchor "https://boli-blog.pl/2011/04/"])
    [⟨2011, 4, "https://boli-blog.pl/2011/04/"⟩,
     ⟨2023, 10, "https://boli-blog.pl/2023/10/"⟩]
    (by rfl) (by decide)

/-- C8: a post article missing its `id` attribute, its
`h1.entry-title`, the anchor inside the title, or that anchor's `href`
makes per-article extraction raise `DownloaderException` (with the
corresponding message), and the presence of such an article in a listing's
article list makes the whole `__process_item` article loop abort with an
exception rather than return success. -/
theorem malformed_post_aborts (article title articleA : Node)
    (articles : List Node) :
    (assocLookup "id" article.attrsOf = none →
      extractPostRef article = .error (.downloader "Article missing ID")) ∧
    (∀ pid, assocLookup "id" article.attrsOf = some pid →
      findInNode "h1" (some "entry-title") article = none →
      extractPostRef article =
        .error (.downloader "Article title not found in article")) ∧
    (∀ pid, assocLookup "id" article.attrsOf = some pid →
      findInNode "h1" (some "entry-title") article = some title →
      findInNode "a" none title = none →
      extractPostRef article =
        .error (.downloader "Article address not found in article")) ∧
    (∀ pid, assocLookup "id" article.attrsOf = some pid →
      findInNode "h1" (some "entry-title") article = some title →
      findInNode "a" none title = some articleA →
      assocLookup "href" articleA.attrsOf = none →
      extractPostRef article =
        .error (.downloader "Article address missing HREF")) ∧
    (∀ (net : String → FetchResult) (parse : String → Node)
        (item : DownloadItem) (w : World) (e : PyErr),
      article ∈ articles → extractPostRef article = .error e →
      ∃ e2 w2, processArticles net parse item articles w = .error (e2, w2)) := by
  refine ⟨?_, ?_, ?_, ?_, ?_⟩
  · intro h
    simp only [extractPostRef, h]
  · intro pid h1 h2
    simp only [extractPostRef, h1, h2]
  · intro pid h1 h2 h3
    simp only [extractPostRef, h1, h2, h3]
  · intro pid h1 h2 h3 h4
    simp only [extractPostRef, h1, h2, h3, h4]
  · intro net parse item w e hmem hbad
    induction articles generalizing w with
    | nil => cases hmem
    | cons a rest ih =>
      rcases hx : extractPostRef a with e1 | pr
      · exact ⟨e1, w, by simp only [processArticles, hx]⟩
      · rcases List.mem_cons.mp hmem with rfl | hmem2
        · rw [hx] at hbad
          cases hbad
        · rcases hpp : processPost net parse item pr.1 pr.2 w with ep | q
          · obtain ⟨ep1, epw⟩ := ep
            refine ⟨ep1, epw, ?_⟩
            simp only [processArticles, hx, hpp]
          · obtain ⟨u, w2⟩ := q
            obtain ⟨e2, w3, hrec⟩ := ih w2 hmem2
            refine ⟨e2, w3, ?_⟩
            simp only [processArticles, hx]
            obtain rfl : u = () := rfl
            rw [hpp]
            exact hrec

/-- C8 witness: an article with no `id` attribute at a concrete input, and
a listing containing it aborts. -/
theorem malformed_post_aborts_witness :
    extractPostRef (Node.elem "article" [("class", "post")] []) =
      .error (.downloader "Article missing ID") ∧
    ∃ e2 w2, processArticles netTimeoutAll sampleParse ⟨2023, 10, "u"⟩
        [Node.elem "article" [("class", "post")] []] emptyWorld =
      .error (e2, w2) := by
  constructor
  · exact (malformed_post_aborts (Node.elem "article" [("class", "post")] [])
      (Node.text "") (Node.text "") []).1 rfl
  · exact (malformed_post_aborts (Node.elem "article" [("class", "post")] [])
      (Node.text "") (Node.text "")
      [Node.elem "article" [("class", "post")] []]).2.2.2.2
      netTimeoutAll sampleParse ⟨2023, 10, "u"⟩ emptyWorld
      (.downloader "Article missing ID") (by simp) (by decide)

/-- C1 counterexample: with a network that times out on the root fetch and
an empty cache, `run` does not return exit code 1 (or any exit code): the
`requests.exceptions.Timeout` is not caught by the
`except (DownloaderException, requests.HTTPError)` clause (app.py line 56)
and propagates out of `run`. -/
theorem run_timeout_uncaught_cex :
    DownloaderApp.run netTimeoutAll sampleParse emptyWorld =
      .error (.timeoutError,
        ⟨[], [], [],
         [("https://boli-blog.pl/", "cache/https___boli-blog.pl_.html")]⟩) := by
  decide

/-- C1 (amended): `run` returns 0 when the body completes, returns 1 when
a `DownloaderException` (structural parse failure) or `requests.HTTPError`
(non-success status) is raised, and never returns any other code; but a
fetch timeout (`requests.exceptions.Timeout`) is not caught: it
propagates out of `run` instead of producing return value 1. -/
theorem run_exit_code_contract (net : String → FetchResult)
    (parse : String → Node) (w : World) :
    (∀ w1, runBody net parse w = .ok ((), w1) →
      DownloaderApp.run net parse w = .ok (0, w1)) ∧
    (∀ m w1, runBody net parse w = .error (.downloader m, w1) →
      DownloaderApp.run net parse w = .ok (1, w1)) ∧
    (∀ w1, runBody net parse w = .error (.httpError, w1) →
      DownloaderApp.run net parse w = .ok (1, w1)) ∧
    (∀ w1, runBody net parse w = .error (.timeoutError, w1) →
      DownloaderApp.run net parse w = .error (.timeoutError, w1)) ∧
    (∀ c w1, DownloaderApp.run net parse w = .ok (c, w1) →
      c = 0 ∨ c = 1) ∧
    (assocLookup (pageFilePath PAGE_ROOT) w.cacheText = none →
      net PAGE_ROOT = .httpFailure →
      DownloaderApp.run net parse w = .ok (1,
        { w with fetchLog :=
            w.fetchLog ++ [(PAGE_ROOT, pageFilePath PAGE_ROOT)] })) ∧
    (assocLookup (pageFilePath PAGE_ROOT) w.cacheText = none →
      net PAGE_ROOT = .timeout →
      DownloaderApp.run net parse w = .error (.timeoutError,
        { w with fetchLog :=
            w.fetchLog ++ [(PAGE_ROOT, pageFilePath PAGE_ROOT)] })) := by
  refine ⟨?_, ?_, ?_, ?_, ?_, ?_, ?_⟩
  · intro w1 hb
    simp only [DownloaderApp.run, hb]
  · intro m w1 hb
    simp only [DownloaderApp.run, hb]
  · intro w1 hb
    simp only [DownloaderApp.run, hb]
  · intro w1 hb
    simp only [DownloaderApp.run, hb]
  · intro c w1 hc
    rcases hb : runBody net parse w with p | q
    · obtain ⟨e, wE⟩ := p
      cases e <;> simp only [DownloaderApp.run, hb] at hc <;> simp_all
    · obtain ⟨u, wO⟩ := q
      simp only [DownloaderApp.run, hb] at hc
      simp_all
  · intro hlk hnet
    have hb : runBody net parse w = .error (.httpError,
        { w with fetchLog :=
            w.fetchLog ++ [(PAGE_ROOT, pageFilePath PAGE_ROOT)] }) := by
      simp only [runBody, downloadRootPage]
      rw [downloadPage_eq]
      simp [hlk, hnet]
    simp only [DownloaderApp.run, hb]
  · intro hlk hnet
    have hb : runBody net parse w = .error (.timeoutError,
        { w with fetchLog :=
            w.fetchLog ++ [(PAGE_ROOT, pageFilePath PAGE_ROOT)] }) := by
      simp only [runBody, downloadRootPage]
      rw [downloadPage_eq]
      simp [hlk, hnet]
    simp only [DownloaderApp.run, hb]

/-- C1 witness: a non-success HTTP status on the root fetch makes `run`
return exit code 1 at a concrete input. -/
theorem run_exit_code_contract_witness :
    assocLookup (pageFilePath PAGE_ROOT) emptyWorld.cacheText = none ∧
    netHttpFailAll PAGE_ROOT = .httpFailure ∧
    DownloaderApp.run netHttpFailAll sampleParse emptyWorld = .ok (1,
      { emptyWorld with fetchLog :=
          emptyWorld.fetchLog ++ [(PAGE_ROOT, pageFilePath PAGE_ROOT)] }) :=
  ⟨rfl, rfl,
   (run_exit_code_contract netHttpFailAll sampleParse emptyWorld).2.2.2.2.2.1
     rfl rfl⟩

/-- A key that `assocLookup` misses is not among the stored keys. -/
theorem assocLookup_none_keys {β : Type} {k : String} :
    ∀ {l : List (String × β)}, assocLookup k l = none →
      k ∉ l.map Prod.fst := by
  intro l
  induction l with
  | nil =>
    intro _ hmem
    cases hmem
  | cons p rest ih =>
    obtain ⟨k2, v⟩ := p
    intro hl hmem
    simp only [assocLookup] at hl
    by_cases hk : k2 == k
    · rw [if_pos hk] at hl
      cases hl
    · rw [if_neg hk] at hl
      simp only [List.map_cons, List.mem_cons] at hmem
      rcases hmem with rfl | hmem2
      · exact hk (by simp)
      · exact ih hl hmem2

/-- The empty fetch extension. -/
theorem fetchSpec_nil (w : World) : FetchSpec w w [] := by
  refine ⟨by simp, ?_, fun x hx => hx, fun x hx => hx⟩
  intro e he
  cases he

/-- Fetch extensions compose. -/
theorem fetchSpec_comp {w w1 w2 : World}
    {L1 L2 : List (String × String)}
    (h1 : FetchSpec w w1 L1) (h2 : FetchSpec w1 w2 L2) :
    FetchSpec w w2 (L1 ++ L2) := by
  obtain ⟨ha, hb, hc, hd⟩ := h1
  obtain ⟨he, hf, hg, hh⟩ := h2
  refine ⟨by rw [he, ha, List.append_assoc], ?_,
    fun x hx => hg (hc hx), fun x hx => hh (hd hx)⟩
  intro e he2
  rcases List.mem_append.mp he2 with h | h
  · exact hb e h
  · rcases hf e h with ⟨hp, hnk⟩ | ⟨hp, hnk⟩
    · exact Or.inl ⟨hp, fun hk => hnk (hc hk)⟩
    · exact Or.inr ⟨hp, fun hk => hnk (hd hk)⟩

/-- A world differing only in `imageWrites` admits the empty fetch
extension. -/
theorem fetchSpec_imageWrites (w : World) (iw : List (String × ByteSeq)) :
    FetchSpec w { w with imageWrites := iw } [] := by
  refine ⟨by simp, ?_, fun x hx => hx, fun x hx => hx⟩
  intro e he
  cases he

/-- A cached (`use_cache=True`) page download only fetches uncached
resources and only grows the cache. -/
theorem downloadPage_true_fetchSpec {net : String → FetchResult}
    {href : String} {w : World} {t : String} {w1 : World}
    (h : downloadPage net href true w = .ok (t, w1)) :
    ∃ L, FetchSpec w w1 L := by
  rw [downloadPage_eq, if_pos rfl] at h
  rcases hc : assocLookup (pageFilePath href) w.cacheText with _ | s
  · simp only [hc] at h
    rcases hn : net href with ⟨t2, c2⟩ | _ | _ <;> simp only [hn] at h <;>
      cases h
    refine ⟨[(href, pageFilePath href)], rfl, ?_, ?_, fun x hx => hx⟩
    · intro e he
      simp only [List.mem_singleton] at he
      subst he
      exact Or.inl ⟨rfl, assocLookup_none_keys hc⟩
    · intro x hx
      simp only [cacheKeysT, List.map_cons]
      exact List.mem_cons_of_mem _ hx
  · simp only [hc] at h
    cases h
    exact ⟨[], fetchSpec_nil w⟩

/-- A cached (`use_cache=True`) image download only fetches uncached
resources and only grows the cache. -/
theorem downloadImage_true_fetchSpec {net : String → FetchResult}
    {href : String} {w : World} {d : ByteSeq} {w1 : World}
    (h : downloadImage net href true w = .ok (d, w1)) :
    ∃ L, FetchSpec w w1 L := by
  rw [downloadImage_eq, if_pos rfl] at h
  rcases hc : assocLookup (imageFilePath href) w.cacheBin with _ | b
  · simp only [hc] at h
    rcases hn : net href with ⟨t2, c2⟩ | _ | _ <;> simp only [hn] at h <;>
      cases h
    refine ⟨[(href, imageFilePath href)], rfl, ?_, fun x hx => hx, ?_⟩
    · intro e he
      simp only [List.mem_singleton] at he
      subst he
      exact Or.inr ⟨rfl, assocLookup_none_keys hc⟩
    · intro x hx
      simp only [cacheKeysB, List.map_cons]
      exact List.mem_cons_of_mem _ hx
  · simp only [hc] at h
    cases h
    exact ⟨[], fetchSpec_nil w⟩

/-- An uncached (`use_cache=False`) page download fetches exactly its own
page and only grows the cache. -/
theorem downloadPage_false_spec {net : String → FetchResult}
    {href : String} {w : World} {t : String} {w1 : World}
    (h : downloadPage net href false w = .ok (t, w1)) :
    w1.fetchLog = w.fetchLog ++ [(href, pageFilePath href)] ∧
    cacheKeysT w ⊆ cacheKeysT w1 ∧ cacheKeysB w ⊆ cacheKeysB w1 := by
  rw [downloadPage_eq] at h
  simp only [Bool.false_eq_true, if_false] at h
  rcases hn : net href with ⟨t2, c2⟩ | _ | _ <;> simp only [hn] at h <;>
    cases h
  refine ⟨rfl, ?_, fun x hx => hx⟩
  intro x hx
  simp only [cacheKeysT, List.map_cons]
  exact List.mem_cons_of_mem _ hx

/-- The per-post image loop only fetches uncached resources. -/
theorem processImagesLoop_fetchSpec (net : String → FetchResult)
    (item : DownloadItem) (idString : String) :
    ∀ (sources : List String) (subid : Nat) (w w1 : World),
      processImagesLoop net item idString subid sources w = .ok ((), w1) →
      ∃ L, FetchSpec w w1 L := by
  intro sources
  induction sources with
  | nil =>
    intro subid w w1 h
    unfold processImagesLoop at h
    cases h
    exact ⟨[], fetchSpec_nil w⟩
  | cons src rest ih =>
    intro subid w w1 h
    unfold processImagesLoop at h
    by_cases hv : sourceValid src = false
    · rw [if_pos hv] at h
      exact ih subid w w1 h
    · rw [if_neg hv] at h
      rcases hdl : downloadImage net src true w with e | ⟨d, wm⟩
      · rw [hdl] at h
        cases h
      · rw [hdl] at h
        obtain ⟨L1, h1⟩ := downloadImage_true_fetchSpec hdl
        obtain ⟨L2, h2⟩ := ih (subid + 1) _ w1 h
        exact ⟨L1 ++ ([] ++ L2),
          fetchSpec_comp h1
            (fetchSpec_comp (fetchSpec_imageWrites wm _) h2)⟩

/-- Post processing (id derivation, cached page fetch, image loop) only
fetches uncached resources. -/
theorem processPost_fetchSpec {net : String → FetchResult}
    {parse : String → Node} {item : DownloadItem}
    {postId postHref : String} {w w1 : World}
    (h : processPost net parse item postId postHref w = .ok ((), w1)) :
    ∃ L, FetchSpec w w1 L := by
  simp only [processPost] at h
  rcases hd : derivePostIdString postId with e | ids
  · simp only [hd] at h
    cases h
  simp only [hd] at h
  rcases hdp : downloadPage net postHref true w with e | ⟨pageText, wm⟩
  · simp only [hdp] at h
    cases h
  simp only [hdp] at h
  rcases hfc : findInNode "div" (some "entry-content") (parse pageText)
    with _ | content
  · simp only [hfc] at h
    cases h
  simp only [hfc] at h
  rcases hcs : collectImageSources (imgsWithParentNode content) with e2 | srcs
  · simp only [hcs] at h
    cases h
  simp only [hcs] at h
  obtain ⟨L1, h1⟩ := downloadPage_true_fetchSpec hdp
  obtain ⟨L2, h2⟩ := processImagesLoop_fetchSpec net item ids srcs 0 wm w1 h
  exact ⟨L1 ++ L2, fetchSpec_comp h1 h2⟩

/-- The article loop only fetches uncached resources. -/
theorem processArticles_fetchSpec {net : String → FetchResult}
    {parse : String → Node} {item : DownloadItem} :
    ∀ (articles : List Node) (w w1 : World),
      processArticles net parse item articles w = .ok ((), w1) →
      ∃ L, FetchSpec w w1 L := by
  intro articles
  induction articles with
  | nil =>
    intro w w1 h
    unfold processArticles at h
    cases h
    exact ⟨[], fetchSpec_nil w⟩
  | cons a rest ih =>
    intro w w1 h
    simp only [processArticles] at h
    rcases hx : extractPostRef a with e | pr
    · simp only [hx] at h
      cases h
    obtain ⟨pid, phref⟩ := pr
    simp only [hx] at h
    rcases hpp : processPost net parse item pid phref w with e | ⟨u, wm⟩
    · simp only [hpp] at h
      cases h
    simp only [hpp] at h
    obtain ⟨L1, h1⟩ := processPost_fetchSpec hpp
    obtain ⟨L2, h2⟩ := ih wm w1 h
    exact ⟨L1 ++ L2, fetchSpec_comp h1 h2⟩

/-- A non-refresh item (listing fetched with `use_cache=True`) only
fetches uncached resources. -/
theorem processItem_false_fetchSpec {net : String → FetchResult}
    {parse : String → Node} {item : DownloadItem} {w w1 : World}
    (h : processItem net parse item false w = .ok ((), w1)) :
    ∃ L, FetchSpec w w1 L := by
  simp only [processItem] at h
  rw [if_neg (by decide : ¬ (false = true))] at h
  rcases hdp : downloadPage net item.href true w with e | ⟨pageText, wm⟩
  · rw [hdp] at h
    cases h
  rw [hdp] at h
  obtain ⟨L1, h1⟩ := downloadPage_true_fetchSpec hdp
  obtain ⟨L2, h2⟩ := processArticles_fetchSpec _ wm w1 h
  exact ⟨L1 ++ L2, fetchSpec_comp h1 h2⟩

/-- The loop over all items but the last only fetches uncached
resources. -/
theorem processItemsLoop_fetchSpec {net : String → FetchResult}
    {parse : String → Node} :
    ∀ (items : List DownloadItem) (w w1 : World),
      processItemsLoop net parse items w = .ok ((), w1) →
      ∃ L, FetchSpec w w1 L := by
  intro items
  induction items with
  | nil =>
    intro w w1 h
    unfold processItemsLoop at h
    cases h
    exact ⟨[], fetchSpec_nil w⟩
  | cons it rest ih =>
    intro w w1 h
    simp only [processItemsLoop] at h
    rcases hpi : processItem net parse it false w with e | ⟨u, wm⟩
    · simp only [hpi] at h
      cases h
    simp only [hpi] at h
    obtain ⟨L1, h1⟩ := processItem_false_fetchSpec hpi
    obtain ⟨L2, h2⟩ := ih wm w1 h
    exact ⟨L1 ++ L2, fetchSpec_comp h1 h2⟩

/-- A refresh item always fetches its own listing page first (cache
bypassed), and everything after that is an uncached fetch. -/
theorem processItem_true_spec {net : String → FetchResult}
    {parse : String → Node} {item : DownloadItem} {w w1 : World}
    (h : processItem net parse item true w = .ok ((), w1)) :
    ∃ L, w1.fetchLog =
        w.fetchLog ++ ((item.href, pageFilePath item.href) :: L) ∧
      (∀ e ∈ L, uncachedFetch w e) ∧
      cacheKeysT w ⊆ cacheKeysT w1 ∧ cacheKeysB w ⊆ cacheKeysB w1 := by
  simp only [processItem, if_true] at h
  rcases hdp : downloadPage net item.href false w with e | ⟨pageText, wm⟩
  · rw [hdp] at h
    cases h
  rw [hdp] at h
  obtain ⟨hlog0, hkT0, hkB0⟩ := downloadPage_false_spec hdp
  obtain ⟨L2, hlog2, hunc2, hkT2, hkB2⟩ := processArticles_fetchSpec _ wm w1 h
  refine ⟨L2, ?_, ?_, fun x hx => hkT2 (hkT0 hx), fun x hx => hkB2 (hkB0 hx)⟩
  · rw [hlog2, hlog0, List.append_assoc]
    rfl
  · intro e he
    rcases hunc2 e he with ⟨hp, hnk⟩ | ⟨hp, hnk⟩
    · exact Or.inl ⟨hp, fun hk => hnk (hkT0 hk)⟩
    · exact Or.inr ⟨hp, fun hk => hnk (hkB0 hk)⟩

/-- C4: on a completed crawl of a non-empty item list, the orchestrator is
the loop over all items but the last (cached) followed by the last item
with refresh; the last item's own listing page is always re-fetched, and
every other network fetch of the whole pass is of a resource that was not
in the cache (post pages and images beneath the refreshed item included). -/
theorem refresh_policy_spec (net : String → FetchResult)
    (parse : String → Node) (items : List DownloadItem)
    (lastIt : DownloadItem) (w w1 : World)
    (hlast : items.getLast? = some lastIt)
    (hok : processItems net parse items w = .ok ((), w1)) :
    (processItems net parse items w =
      match processItemsLoop net parse items.dropLast w with
      | .error e => .error e
      | .ok (_, w2) => processItem net parse lastIt true w2) ∧
    ∃ L, w1.fetchLog = w.fetchLog ++ L ∧
      (lastIt.href, pageFilePath lastIt.href) ∈ L ∧
      ∀ e ∈ L, e = (lastIt.href, pageFilePath lastIt.href) ∨
        uncachedFetch w e := by
  constructor
  · simp only [processItems, hlast]
  · simp only [processItems, hlast] at hok
    rcases hl : processItemsLoop net parse items.dropLast w with e | ⟨u, w2⟩
    · simp only [hl] at hok
      cases hok
    simp only [hl] at hok
    obtain ⟨L1, hlog1, hunc1, hkT1, hkB1⟩ := processItemsLoop_fetchSpec _ w w2 hl
    obtain ⟨L2, hlog2, hunc2, hkT2, hkB2⟩ := processItem_true_spec hok
    refine ⟨L1 ++ ((lastIt.href, pageFilePath lastIt.href) :: L2), ?_, ?_, ?_⟩
    · rw [hlog2, hlog1, List.append_assoc]
    · simp
    · intro e he
      rcases List.mem_append.mp he with h | h
      · exact Or.inr (hunc1 e h)
      · rcases List.mem_cons.mp h with rfl | h2
        · exact Or.inl rfl
        · rcases hunc2 e h2 with ⟨hp, hnk⟩ | ⟨hp, hnk⟩
          · exact Or.inr (Or.inl ⟨hp, fun hk => hnk (hkT1 hk)⟩)
          · exact Or.inr (Or.inr ⟨hp, fun hk => hnk (hkB1 hk)⟩)

/-- C4 witness: a concrete two-item crawl from an empty cache; the
orchestration hypotheses hold and the theorem yields the refresh
accounting for the most recent item. -/
theorem refresh_policy_spec_witness :
    ([⟨2011, 4, "https://boli-blog.pl/2011/04/"⟩,
      (⟨2023, 10, "https://boli-blog.pl/2023/10/"⟩ : DownloadItem)].getLast? =
        some ⟨2023, 10, "https://boli-blog.pl/2023/10/"⟩) ∧
    (∃ L,
      (⟨[("cache/https___boli-blog.pl_p1.html", "P1"),
         ("cache/https___boli-blog.pl_2023_10_.html", "L2310"),
         ("cache/https___boli-blog.pl_p2.html", "P2"),
         ("cache/https___boli-blog.pl_2011_04_.html", "L1104")],
        [("cache/74dcaec248bd4c061e1b17516657004539782abb39267fee331d8a5d6c09a5f0.bin",
          [137, 80, 78, 71, 9])],
        [("images/2011-04-0000000008-0000.png", [137, 80, 78, 71, 9]),
         ("images/2023-10-0000000007-0000.png", [137, 80, 78, 71, 9])],
        [("https://boli-blog.pl/2011/04/", "cache/https___boli-blog.pl_2011_04_.html"),
         ("https://boli-blog.pl/p2", "cache/https___boli-blog.pl_p2.html"),
         ("https://img.blogspot.com/a",
          "cache/74dcaec248bd4c061e1b17516657004539782abb39267fee331d8a5d6c09a5f0.bin"),
         ("https://boli-blog.pl/2023/10/", "cache/https___boli-blog.pl_2023_10_.html"),
         ("https://boli-blog.pl/p1", "cache/https___boli-blog.pl_p1.html")]⟩
          : World).fetchLog = emptyWorld.fetchLog ++ L ∧
      ("https://boli-blog.pl/2023/10/",
        pageFilePath "https://boli-blog.pl/2023/10/") ∈ L ∧
      ∀ e ∈ L, e = ("https://boli-blog.pl/2023/10/",
          pageFilePath "https://boli-blog.pl/2023/10/") ∨
        uncachedFetch emptyWorld e) :=
  ⟨by decide,
   (refresh_policy_spec sampleNet sampleParse
     [⟨2011, 4, "https://boli-blog.pl/2011/04/"⟩,
      ⟨2023, 10, "https://boli-blog.pl/2023/10/"⟩]
     ⟨2023, 10, "https://boli-blog.pl/2023/10/"⟩ emptyWorld
     ⟨[("cache/https___boli-blog.pl_p1.html", "P1"),
       ("cache/https___boli-blog.pl_2023_10_.html", "L2310"),
       ("cache/https___boli-blog.pl_p2.html", "P2"),
       ("cache/https___boli-blog.pl_2011_04_.html", "L1104")],
      [("cache/74dcaec248bd4c061e1b17516657004539782abb39267fee331d8a5d6c09a5f0.bin",
        [137, 80, 78, 71, 9])],
      [("images/2011-04-0000000008-0000.png", [137, 80, 78, 71, 9]),
       ("images/2023-10-0000000007-0000.png", [137, 80, 78, 71, 9])],
      [("https://boli-blog.pl/2011/04/", "cache/https___boli-blog.pl_2011_04_.html"),
       ("https://boli-blog.pl/p2", "cache/https___boli-blog.pl_p2.html"),
       ("https://img.blogspot.com/a",
        "cache/74dcaec248bd4c061e1b17516657004539782abb39267fee331d8a5d6c09a5f0.bin"),
       ("https://boli-blog.pl/2023/10/", "cache/https___boli-blog.pl_2023_10_.html"),
       ("https://boli-blog.pl/p1", "cache/https___boli-blog.pl_p1.html")]⟩
     (by decide) (by decide)).2⟩
